import Mathlib

/-!
Shallow embedding of the `snake` game (Rust, `src/lib.rs` and `src/main.rs`)
for checking its natural-language specification.

Numeric modelling: the game stores positions and rectangle extents as `f32`
and sizes as `u32`.  All values the game manipulates are small integer-valued
quantities on which `f32` arithmetic is exact, so scalars are embedded as `ℚ`
and `u32` as `ℕ` (with an explicit `% 2 ^ 32` wrap where the Rust arithmetic
can overflow).  Rust's `%` on floats is the truncating remainder; it is
embedded as `qrem` below.  Rendering-only attributes (outline colours, draw
calls, sounds, textures) and the window handle are external collaborators and
are not part of the embedding; randomness is passed in as an explicit oracle
of draws.
-/

/-- Truncation of a rational toward zero, as Rust `trunc` behaves on `f32`. -/
def qtrunc (q : ℚ) : ℤ :=
  if 0 ≤ q then ⌊q⌋ else ⌈q⌉

/-- Rust `%` on `f32`: the remainder `a - b * trunc (a / b)` (sign of the
dividend). -/
def qrem (a b : ℚ) : ℚ :=
  a - b * (qtrunc (a / b) : ℚ)

/-- Rust `as u32` cast from `f32`: truncate toward zero and saturate to
`[0, 2^32 - 1]`. -/
def f32_as_u32 (q : ℚ) : ℕ :=
  Int.toNat (min (qtrunc q) (2 ^ 32 - 1))

/-- The SFML 2-d float vector `Vector2f`. -/
structure Vector2f where
  x : ℚ
  y : ℚ
deriving DecidableEq, Repr

/-- The SFML float rectangle `FloatRect` (left, top, width, height). -/
structure FloatRect where
  left : ℚ
  top : ℚ
  width : ℚ
  height : ℚ
deriving DecidableEq, Repr

/-- `FloatRect::intersection` from SFML: normalise both rectangles with
min/max, intersect, and return a rectangle only when the overlap has strictly
positive width and height. -/
def FloatRect.intersection (r1 r2 : FloatRect) : Option FloatRect :=
  let r1MinX := min r1.left (r1.left + r1.width)
  let r1MaxX := max r1.left (r1.left + r1.width)
  let r1MinY := min r1.top (r1.top + r1.height)
  let r1MaxY := max r1.top (r1.top + r1.height)
  let r2MinX := min r2.left (r2.left + r2.width)
  let r2MaxX := max r2.left (r2.left + r2.width)
  let r2MinY := min r2.top (r2.top + r2.height)
  let r2MaxY := max r2.top (r2.top + r2.height)
  let interLeft := max r1MinX r2MinX
  let interTop := max r1MinY r2MinY
  let interRight := min r1MaxX r2MaxX
  let interBottom := min r1MaxY r2MaxY
  if interLeft < interRight ∧ interTop < interBottom then
    some ⟨interLeft, interTop, interRight - interLeft, interBottom - interTop⟩
  else
    none

/-- An SFML colour (only the channels; alpha is never read by the game). -/
structure Color where
  r : ℕ
  g : ℕ
  b : ℕ
deriving DecidableEq, Repr

/-- The four snake directions (`enum Direction`). -/
inductive Direction where
  | Left
  | Up
  | Right
  | Down
deriving DecidableEq, Repr

/-- `Direction::is_opposite_to`: true only if the self direction is opposite
to the given one. -/
def Direction.is_opposite_to (self : Direction) (other : Option Direction) : Bool :=
  match other with
  | some direction =>
    match self with
    | Direction.Left => direction == Direction.Right
    | Direction.Up => direction == Direction.Down
    | Direction.Right => direction == Direction.Left
    | Direction.Down => direction == Direction.Up
  | none => false

/-- A game entity (`struct Entity`): the position, size and fill colour of its
rectangle shape.  Outline colour and thickness are render-only and omitted. -/
structure Entity where
  position : Vector2f
  size : Vector2f
  color : Color
deriving DecidableEq, Repr

/-- `Entity::new`: a square shape of the given size at the given position. -/
def Entity.new (size : ℕ) (position : Vector2f) (color : Color) : Entity :=
  { position := position, size := ⟨(size : ℚ), (size : ℚ)⟩, color := color }

/-- `Entity::set_position`. -/
def Entity.set_position (e : Entity) (position : Vector2f) : Entity :=
  { e with position := position }

/-- `Entity::area`: the axis-aligned bounding rectangle of the entity. -/
def Entity.area (e : Entity) : FloatRect :=
  ⟨e.position.x, e.position.y, e.size.x, e.size.y⟩

/-- The snake (`struct Snake`): its segments (front of the list = head of the
snake, mirroring the `VecDeque` front) and current/pending direction. -/
structure Snake where
  segments : List Entity
  direction : Option Direction
  next_direction : Option Direction
deriving DecidableEq, Repr

/-- `Snake::new`: a single-segment snake at the given position. -/
def Snake.new (position : Vector2f) (size : ℕ) (color : Color) : Snake :=
  { segments := [Entity.new size position color], direction := none, next_direction := none }

/-- `Snake::head_position`; the source unwraps the front segment, so the
empty-deque failure branch is `none` here. -/
def Snake.head_position (s : Snake) : Option Vector2f :=
  s.segments.head?.map Entity.position

/-- `Snake::size` (the size of the head segment). -/
def Snake.size (s : Snake) : Option Vector2f :=
  s.segments.head?.map Entity.size

/-- `Snake::area` (the area of the head segment). -/
def Snake.area (s : Snake) : Option FloatRect :=
  s.segments.head?.map Entity.area

/-- `Snake::color` (the fill colour of the head segment). -/
def Snake.color (s : Snake) : Option Color :=
  s.segments.head?.map Entity.color

/-- `Snake::collision`: true only if the given area collides with any snake
segment from the `n_skip`-th one on; each segment is tested as a rectangle at
the segment's position with the probe area's width and height. -/
def Snake.collision (s : Snake) (area : FloatRect) (n_skip : ℕ) : Bool :=
  (s.segments.drop n_skip).any fun segment =>
    let seg_position := segment.position
    let seg_area : FloatRect := ⟨seg_position.x, seg_position.y, area.width, area.height⟩
    (area.intersection seg_area).isSome

/-- `Snake::self_collision`: collision of the head area with the segments from
index 1 on. -/
def Snake.self_collision (s : Snake) : Option Bool :=
  s.area.map fun a => s.collision a 1

/-- `Snake::grow`: append a new segment with the head's size, position and
colour at the back of the deque. -/
def Snake.grow (s : Snake) : Option Snake :=
  match s.size, s.head_position, s.color with
  | some sz, some hp, some c =>
    some { s with segments := s.segments ++ [Entity.new (f32_as_u32 sz.x) hp c] }
  | _, _, _ => none

/-- `Snake::reset`: pop segments from the back until only the head remains,
and clear both direction fields. -/
def Snake.reset (s : Snake) : Snake :=
  { segments := s.segments.take 1, direction := none, next_direction := none }

/-- `Snake::advance`: commit the pending direction, pop the tail, move it to
the head's position translated one segment size in the committed direction and
wrapped with the truncating remainder against the viewport, and push it at the
front.  With no committed direction the detached tail keeps its position. -/
def Snake.advance (s : Snake) (viewport : FloatRect) : Option Snake :=
  let direction := s.next_direction
  match s.head_position, s.size, s.segments.getLast? with
  | some front_position, some sz, some last =>
    let size := sz.x
    let rest := s.segments.dropLast
    let back_position := last.position
    let new_position :=
      match direction with
      | some Direction.Left =>
        let x := qrem (front_position.x - size + viewport.width - viewport.left) viewport.width
        Vector2f.mk (x + viewport.left) front_position.y
      | some Direction.Up =>
        let y := qrem (front_position.y - size + viewport.height - viewport.top) viewport.height
        Vector2f.mk front_position.x (y + viewport.top)
      | some Direction.Right =>
        let x := qrem (front_position.x + size - viewport.left) viewport.width
        Vector2f.mk (x + viewport.left) front_position.y
      | some Direction.Down =>
        let y := qrem (front_position.y + size - viewport.top) viewport.height
        Vector2f.mk front_position.x (y + viewport.top)
      | none => back_position
    some { segments := last.set_position new_position :: rest,
           direction := direction, next_direction := s.next_direction }
  | _, _, _ => none

/-- The game state (`enum State`, extended variant). -/
inductive State where
  | Pause
  | Play
  | GameOver
deriving DecidableEq, Repr

/-- The keyboard keys the game distinguishes; every other key is `Other`. -/
inductive Key where
  | A
  | W
  | D
  | S
  | P
  | Other
deriving DecidableEq, Repr

/-- The `key_direction` closure of `SnakeGame::handle_input`: map the four
movement keys to a direction. -/
def key_direction (key : Key) : Option Direction :=
  match key with
  | Key.A => some Direction.Left
  | Key.W => some Direction.Up
  | Key.D => some Direction.Right
  | Key.S => some Direction.Down
  | _ => none

/-- The score `Text` object: its position, string content and character size
(the render-only font is external). -/
structure GameText where
  position : Vector2f
  content : String
  character_size : ℕ
deriving DecidableEq, Repr

/-- Wrapping `u32` subtraction `a - b` as Rust release builds compute it
(two's-complement wrap), for `a < 2 ^ 32`. -/
def u32_sub (a b : ℕ) : ℕ :=
  (a + 2 ^ 32 - b % 2 ^ 32) % 2 ^ 32

/-- The `digit_count` closure of `SnakeGame::set_score`: `count = 1`, then
`count += 1` while `n / 10 != 0`. -/
def digit_count (n : ℕ) : ℕ :=
  if n / 10 = 0 then 1 else 1 + digit_count (n / 10)
termination_by n
decreasing_by omega

/-- The game (`struct SnakeGame`): the window, border, sounds, sprite and font
are external collaborators; the fields the update logic reads and writes are
embedded, with the window handle reduced to the width that `set_score` reads. -/
structure SnakeGame where
  player : Snake
  food : Entity
  entity_size : ℕ
  viewport : FloatRect
  score : ℕ
  state : State
  score_text : GameText
  window_size_x : ℕ
deriving DecidableEq, Repr

/-- `SnakeGame::random_position`: `rx` and `ry` are the two `gen_range(0.0,
extent)` draws; each coordinate is offset by the viewport origin and then
truncated with `x - x % entity_size` (an absolute-coordinate truncation). -/
def SnakeGame.random_position (viewport : FloatRect) (entity_size : ℕ) (rx ry : ℚ) :
    Vector2f :=
  let x := rx + viewport.left
  let x := x - qrem x (entity_size : ℚ)
  let y := ry + viewport.top
  let y := y - qrem y (entity_size : ℚ)
  ⟨x, y⟩

/-- The rejection-sampling loop of `SnakeGame::update`: draw a candidate food
position and redraw while it collides with the snake (skip = 0).  The oracle
`draws` supplies the random pairs; an exhausted oracle (`none`) models a loop
that has not terminated yet. -/
def food_search (player : Snake) (viewport : FloatRect) (entity_size : ℕ) :
    List (ℚ × ℚ) → Option Vector2f
  | [] => none
  | d :: rest =>
    let food_position := SnakeGame.random_position viewport entity_size d.1 d.2
    let food_area : FloatRect :=
      ⟨food_position.x, food_position.y, (entity_size : ℚ), (entity_size : ℚ)⟩
    if player.collision food_area 0 then food_search player viewport entity_size rest
    else some food_position

/-- `SnakeGame::set_score`: store the value and refresh the score text string
and its right-aligned position. -/
def SnakeGame.set_score (g : SnakeGame) (value : ℕ) : SnakeGame :=
  let offset := (digit_count value * g.score_text.character_size) % 2 ^ 32
  { g with
    score := value,
    score_text := { g.score_text with
      position := ⟨((u32_sub g.window_size_x offset : ℕ) : ℚ), 10⟩,
      content := toString value } }

/-- `SnakeGame::game_over`: set the state to `GameOver` (the game-over sound
is external). -/
def SnakeGame.game_over (g : SnakeGame) : SnakeGame :=
  { g with state := State.GameOver }

/-- `SnakeGame::handle_input`: a movement key first resets player and score
when the state is `GameOver`, then stores the mapped direction as the pending
direction and enters `Play` unless the snake is longer than one segment and
the key is opposite to the current direction; `P` pauses only from `Play`,
clearing the pending direction. -/
def SnakeGame.handle_input (g : SnakeGame) (key : Key) : SnakeGame :=
  match key_direction key with
  | some direction =>
    let g1 :=
      match g.state with
      | State.GameOver => (SnakeGame.set_score { g with player := g.player.reset } 0)
      | _ => g
    if g1.player.segments.length == 1 || !(direction.is_opposite_to g1.player.direction) then
      { g1 with player := { g1.player with next_direction := some direction },
                state := State.Play }
    else g1
  | none =>
    match key with
    | Key.P =>
      match g.state with
      | State.Play =>
        { g with player := { g.player with next_direction := none }, state := State.Pause }
      | _ => g
    | _ => g

/-- `SnakeGame::update`: a no-op in `Pause` and `GameOver`; otherwise advance
the player, go to game over on self collision, and on a head/food overlap
grow, relocate the food through the rejection-sampling loop, and add 10 to the
score (`u32` addition, wrapping in release builds).  `none` models a panicking
unwrap or a non-terminating food search. -/
def SnakeGame.update (g : SnakeGame) (draws : List (ℚ × ℚ)) : Option SnakeGame :=
  match g.state with
  | State.Pause => some g
  | State.GameOver => some g
  | State.Play =>
    match g.player.advance g.viewport with
    | none => none
    | some player =>
      match Snake.self_collision player with
      | none => none
      | some true => some (SnakeGame.game_over { g with player := player })
      | some false =>
        match Snake.area player with
        | none => none
        | some head_area =>
          match head_area.intersection g.food.area with
          | some _ =>
            match Snake.grow player with
            | none => none
            | some player2 =>
              match food_search player2 g.viewport g.entity_size draws with
              | none => none
              | some food_position =>
                let g1 := { g with player := player2,
                                   food := g.food.set_position food_position }
                some (g1.set_score ((g1.score + 10) % 2 ^ 32))
          | none => some { g with player := player }

/-- The condition under which `SnakeGame::update` takes its food-consumption
branch: the state is `Play`, the advance and self-collision test succeed with
no collision, and the head area intersects the food area. -/
def SnakeGame.food_eaten (g : SnakeGame) : Prop :=
  g.state = State.Play ∧
  ∃ p, g.player.advance g.viewport = some p ∧
    Snake.self_collision p = some false ∧
    ∃ a, Snake.area p = some a ∧ (a.intersection g.food.area).isSome

/-- Rust `str::parse::<u32>`: an optional leading `+`, then at least one
decimal digit, with the value required to fit in 32 bits. -/
def parseU32 (s : String) : Option ℕ :=
  let chars := s.data
  let digits :=
    match chars with
    | '+' :: rest => rest
    | l => l
  if digits.isEmpty then none
  else if digits.all Char.isDigit then
    let v := digits.foldl (fun acc c => acc * 10 + (c.toNat - 48)) 0
    if v < 2 ^ 32 then some v else none
  else none

/-- The game configuration (`struct Config`). -/
structure Config where
  window_size : ℕ × ℕ
  entity_size : ℕ
  fps : ℕ
  text_size : ℕ
  text_color : Color
  snake_color : Color
  food_color : Color
  back_color : Color
deriving DecidableEq, Repr

/-- SFML `Color::BLACK`. -/
def Color.BLACK : Color := ⟨0, 0, 0⟩

/-- SFML `Color::GREEN`. -/
def Color.GREEN : Color := ⟨0, 255, 0⟩

/-- SFML `Color::RED`. -/
def Color.RED : Color := ⟨255, 0, 0⟩

/-- SFML `Color::rgb`. -/
def Color.rgb (r g b : ℕ) : Color := ⟨r, g, b⟩

/-- The two failure modes of `Config::new`: the explicit `Err` return for a
bad argument count, and the `expect` panics when a dimension fails to parse
(the panic message is the embedded string). -/
inductive ConfigError where
  | invalid_arg_count (msg : String)
  | parse_panic (msg : String)
deriving DecidableEq, Repr

/-- `Config::new`: require at least three arguments, parse the two window
dimensions (panicking on failure), and build the fixed configuration. -/
def Config.new (args : List String) : Except ConfigError Config :=
  if args.length < 3 then
    Except.error (ConfigError.invalid_arg_count "Invalid number of arguments: <width> <height>")
  else
    match parseU32 (args.getD 1 "") with
    | none => Except.error (ConfigError.parse_panic "The window with must be a u32")
    | some width =>
      match parseU32 (args.getD 2 "") with
      | none => Except.error (ConfigError.parse_panic "The window height must be a u32")
      | some height =>
        Except.ok
          { window_size := (width, height), entity_size := 40, fps := 10, text_size := 50,
            text_color := Color.BLACK, snake_color := Color.GREEN,
            food_color := Color.RED, back_color := Color.rgb 122 122 122 }

/-- The observable outcome of `main` before the event loop: terminate with an
exit code and operator message, or proceed into `snake::run` with a parsed
configuration (window and game state creation happen only on this path). -/
inductive MainOutcome where
  | exit (code : ℕ) (message : String)
  | run (config : Config)
deriving DecidableEq, Repr

/-- The `main` function from `src/main.rs` (named `rust_main` here since Lean
reserves `main`): an `Err` from `Config::new` is reported through
`eprintln` and `process::exit(1)`; a panic inside `Config::new` aborts the
process with the panic message and the Rust panic exit code 101. -/
def rust_main (args : List String) : MainOutcome :=
  match Config.new args with
  | Except.error (ConfigError.invalid_arg_count msg) =>
    MainOutcome.exit 1 ("Error parsing arguments: " ++ msg ++ ".")
  | Except.error (ConfigError.parse_panic msg) =>
    MainOutcome.exit 101 msg
  | Except.ok config => MainOutcome.run config

/-! ### Arithmetic lemmas about the truncating remainder -/

theorem qtrunc_eq_floor {q : ℚ} (h : 0 ≤ q) : qtrunc q = ⌊q⌋ := by
  simp [qtrunc, h]

theorem qrem_eq_sub_floor {a w : ℚ} (ha : 0 ≤ a) (hw : 0 < w) :
    qrem a w = a - w * ⌊a / w⌋ := by
  rw [qrem, qtrunc_eq_floor (div_nonneg ha hw.le)]

theorem qrem_nonneg {a w : ℚ} (ha : 0 ≤ a) (hw : 0 < w) : 0 ≤ qrem a w := by
  rw [qrem_eq_sub_floor ha hw]
  have h1 : w * (a / w - ⌊a / w⌋) = a - w * ⌊a / w⌋ := by
    field_simp
  have h2 : 0 ≤ a / w - ⌊a / w⌋ := by
    have := Int.floor_le (a / w)
    linarith
  nlinarith

theorem qrem_lt {a w : ℚ} (ha : 0 ≤ a) (hw : 0 < w) : qrem a w < w := by
  rw [qrem_eq_sub_floor ha hw]
  have h1 : w * (a / w - ⌊a / w⌋) = a - w * ⌊a / w⌋ := by
    field_simp
  have h2 : a / w - ⌊a / w⌋ < 1 := by
    have := Int.lt_floor_add_one (a / w)
    linarith
  nlinarith

theorem qrem_add_self {a w : ℚ} (ha : 0 ≤ a) (hw : 0 < w) :
    qrem (a + w) w = qrem a w := by
  have haw : (0 : ℚ) ≤ a + w := by linarith
  rw [qrem_eq_sub_floor ha hw, qrem_eq_sub_floor haw hw]
  have hne : w ≠ 0 := ne_of_gt hw
  have hdiv : (a + w) / w = a / w + 1 := by
    field_simp
  rw [hdiv, Int.floor_add_one]
  push_cast
  ring

/-! ### Basic facts about snakes with at least one segment -/

theorem Snake.head_position_cons {s : Snake} {e : Entity} {l : List Entity}
    (h : s.segments = e :: l) : s.head_position = some e.position := by
  simp [Snake.head_position, h]

theorem Snake.size_cons {s : Snake} {e : Entity} {l : List Entity}
    (h : s.segments = e :: l) : s.size = some e.size := by
  simp [Snake.size, h]

theorem Snake.getLast_isSome {s : Snake} {e : Entity} {l : List Entity}
    (h : s.segments = e :: l) : ∃ last, s.segments.getLast? = some last := by
  rw [h, List.getLast?_eq_getLast _ (List.cons_ne_nil e l)]
  exact ⟨_, rfl⟩

theorem Entity.set_position_self (e : Entity) : e.set_position e.position = e :=
  rfl

theorem Snake.color_cons {s : Snake} {e : Entity} {l : List Entity}
    (h : s.segments = e :: l) : s.color = some e.color := by
  simp [Snake.color, h]

theorem Snake.area_cons {s : Snake} {e : Entity} {l : List Entity}
    (h : s.segments = e :: l) : s.area = some e.area := by
  simp [Snake.area, h]

/-! ### Claim theorems -/

/-- C6: advancing a snake whose current and pending directions are both unset
does not change the position of any segment entity: the popped tail is
re-inserted at the front with its old position, so the new segment sequence is
the old one with the tail entity rotated to the front — a permutation of the
same entities, hence the same multiset of positions. -/
theorem c6_advance_unset_direction_noop (s : Snake) (viewport : FloatRect)
    (_hdir : s.direction = none) (hnext : s.next_direction = none)
    (hne : s.segments ≠ []) :
    ∃ s' last, s.segments.getLast? = some last ∧ s.advance viewport = some s' ∧
      s'.segments = last :: s.segments.dropLast ∧
      s'.segments.Perm s.segments ∧
      (s'.segments.map Entity.position).Perm (s.segments.map Entity.position) := by
  obtain ⟨e, l, hseg⟩ := List.exists_cons_of_ne_nil hne
  have hlast : s.segments.getLast? = some (s.segments.getLast hne) :=
    List.getLast?_eq_getLast _ hne
  have hadv : s.advance viewport =
      some (Snake.mk (s.segments.getLast hne :: s.segments.dropLast) none none) := by
    rw [Snake.advance, Snake.head_position_cons hseg, Snake.size_cons hseg, hlast, hnext]
    simp [Entity.set_position_self]
  have hperm : (s.segments.getLast hne :: s.segments.dropLast).Perm s.segments := by
    have hd := List.dropLast_append_getLast hne
    have hp := List.perm_append_singleton (s.segments.getLast hne) s.segments.dropLast
    rw [hd] at hp
    exact hp.symm
  exact ⟨_, _, hlast, hadv, rfl, hperm, hperm.map Entity.position⟩

/-- Witness for C6: a concrete two-segment snake with both direction fields
unset keeps both segment positions across `advance`. -/
theorem c6_advance_unset_direction_noop_witness :
    ∃ s' last,
      (Snake.mk [Entity.new 40 ⟨0, 0⟩ Color.GREEN, Entity.new 40 ⟨40, 0⟩ Color.GREEN]
          none none).segments.getLast? = some last ∧
      (Snake.mk [Entity.new 40 ⟨0, 0⟩ Color.GREEN, Entity.new 40 ⟨40, 0⟩ Color.GREEN]
          none none).advance ⟨0, 0, 400, 400⟩ = some s' ∧
      s'.segments = last ::
        (Snake.mk [Entity.new 40 ⟨0, 0⟩ Color.GREEN, Entity.new 40 ⟨40, 0⟩ Color.GREEN]
          none none).segments.dropLast ∧
      s'.segments.Perm
        (Snake.mk [Entity.new 40 ⟨0, 0⟩ Color.GREEN, Entity.new 40 ⟨40, 0⟩ Color.GREEN]
          none none).segments ∧
      (s'.segments.map Entity.position).Perm
        ((Snake.mk [Entity.new 40 ⟨0, 0⟩ Color.GREEN, Entity.new 40 ⟨40, 0⟩ Color.GREEN]
          none none).segments.map Entity.position) :=
  c6_advance_unset_direction_noop _ _ rfl rfl (by simp)

/-- Helper: on a non-empty snake, `advance` always succeeds and returns the
former tail, repositioned, in front of the remaining segments. -/
theorem Snake.advance_eq (s : Snake) (viewport : FloatRect) (hne : s.segments ≠ []) :
    ∃ np, s.advance viewport = some (Snake.mk
      ((s.segments.getLast hne).set_position np :: s.segments.dropLast)
      s.next_direction s.next_direction) := by
  obtain ⟨e, l, hseg⟩ := List.exists_cons_of_ne_nil hne
  have hlast : s.segments.getLast? = some (s.segments.getLast hne) :=
    List.getLast?_eq_getLast _ hne
  rw [Snake.advance, Snake.head_position_cons hseg, Snake.size_cons hseg, hlast]
  exact ⟨_, rfl⟩

/-- C8: every snake operation preserves a non-empty segment sequence, and on a
non-empty snake the head accessors and the tail removal inside `advance` never
hit their empty-sequence failure branch. -/
theorem c8_snake_never_empty :
    (∀ position size color, (Snake.new position size color).segments ≠ []) ∧
    (∀ s : Snake, s.segments ≠ [] →
      (∃ s', s.grow = some s' ∧ s'.segments ≠ [] ∧
        s'.segments.length = s.segments.length + 1) ∧
      (s.reset.segments ≠ [] ∧ s.reset.segments.length = 1) ∧
      (∀ viewport, ∃ s', s.advance viewport = some s' ∧ s'.segments ≠ [] ∧
        s'.segments.length = s.segments.length) ∧
      s.head_position.isSome ∧ s.size.isSome ∧ s.area.isSome ∧ s.color.isSome) := by
  constructor
  · intro position size color
    simp [Snake.new]
  · intro s hne
    obtain ⟨e, l, hseg⟩ := List.exists_cons_of_ne_nil hne
    have hlast : s.segments.getLast? = some (s.segments.getLast hne) :=
      List.getLast?_eq_getLast _ hne
    have hgrow : s.grow = some { s with segments :=
        s.segments ++ [Entity.new (f32_as_u32 e.size.x) e.position e.color] } := by
      rw [Snake.grow, Snake.size_cons hseg, Snake.head_position_cons hseg,
        Snake.color_cons hseg]
    refine ⟨?_, ?_, ?_, ?_, ?_, ?_, ?_⟩
    · exact ⟨_, hgrow, by simp [hseg], by simp⟩
    · constructor
      · simp [Snake.reset, hseg]
      · simp [Snake.reset, hseg]
    · intro viewport
      obtain ⟨np, hadv⟩ := Snake.advance_eq s viewport hne
      refine ⟨_, hadv, by simp, ?_⟩
      simp only [List.length_cons, List.length_dropLast, hseg]
      simp
    · simp [Snake.head_position, hseg]
    · simp [Snake.size, hseg]
    · simp [Snake.area, hseg]
    · simp [Snake.color, hseg]

/-- Witness for C8: the non-emptiness facts at a concrete one-segment snake. -/
theorem c8_snake_never_empty_witness :
    (∃ s', (Snake.new ⟨0, 0⟩ 40 Color.GREEN).grow = some s' ∧ s'.segments ≠ [] ∧
      s'.segments.length = (Snake.new ⟨0, 0⟩ 40 Color.GREEN).segments.length + 1) ∧
    ((Snake.new ⟨0, 0⟩ 40 Color.GREEN).reset.segments ≠ [] ∧
      (Snake.new ⟨0, 0⟩ 40 Color.GREEN).reset.segments.length = 1) ∧
    (∀ viewport, ∃ s', (Snake.new ⟨0, 0⟩ 40 Color.GREEN).advance viewport = some s' ∧
      s'.segments ≠ [] ∧
      s'.segments.length = (Snake.new ⟨0, 0⟩ 40 Color.GREEN).segments.length) ∧
    (Snake.new ⟨0, 0⟩ 40 Color.GREEN).head_position.isSome ∧
    (Snake.new ⟨0, 0⟩ 40 Color.GREEN).size.isSome ∧
    (Snake.new ⟨0, 0⟩ 40 Color.GREEN).area.isSome ∧
    (Snake.new ⟨0, 0⟩ 40 Color.GREEN).color.isSome :=
  c8_snake_never_empty.2 (Snake.new ⟨0, 0⟩ 40 Color.GREEN) (by simp [Snake.new])

/-- The wrap formula stated by the specification: `(coordinate - origin +
extent) mod extent + origin`, with `mod` the truncating remainder the code
uses.  This follows the spec wording, for comparison with `Snake.advance`. -/
def spec_wrap (coordinate origin extent : ℚ) : ℚ :=
  qrem (coordinate - origin + extent) extent + origin

/-- The head position the specification predicts for one advance of a head
entity `e` in direction `d`: the head coordinate translated by one segment
size and wrapped with `spec_wrap` against the viewport. -/
def spec_advance_target (e : Entity) (d : Direction) (viewport : FloatRect) : Vector2f :=
  match d with
  | Direction.Left =>
    ⟨spec_wrap (e.position.x - e.size.x) viewport.left viewport.width, e.position.y⟩
  | Direction.Up =>
    ⟨e.position.x, spec_wrap (e.position.y - e.size.x) viewport.top viewport.height⟩
  | Direction.Right =>
    ⟨spec_wrap (e.position.x + e.size.x) viewport.left viewport.width, e.position.y⟩
  | Direction.Down =>
    ⟨e.position.x, spec_wrap (e.position.y + e.size.x) viewport.top viewport.height⟩

/-- C1 (amended): for a snake with a committed pending direction, in a
viewport with positive extents, whose head coordinates are at least the
viewport origin and whose segment size is non-negative, `advance` moves the
former tail to the head position translated one segment size in that
direction and wrapped by the spec formula `(coordinate - origin + extent) mod
extent + origin`; the segment count is unchanged and the repositioned former
tail is the new head. -/
theorem c1_advance_wraps_in_viewport (s : Snake) (viewport : FloatRect) (d : Direction)
    (e : Entity) (l : List Entity) (hseg : s.segments = e :: l) (hne : s.segments ≠ [])
    (hnext : s.next_direction = some d)
    (hw : 0 < viewport.width) (hh : 0 < viewport.height)
    (hx1 : viewport.left ≤ e.position.x) (hy1 : viewport.top ≤ e.position.y)
    (hsz : 0 ≤ e.size.x) :
    ∃ s', s.advance viewport = some s' ∧
      s'.segments = (s.segments.getLast hne).set_position (spec_advance_target e d viewport)
        :: s.segments.dropLast ∧
      s'.segments.length = s.segments.length ∧
      s'.head_position = some (spec_advance_target e d viewport) := by
  have hlast : s.segments.getLast? = some (s.segments.getLast hne) :=
    List.getLast?_eq_getLast _ hne
  have hlen : ∀ np : Vector2f,
      ((s.segments.getLast hne).set_position np :: s.segments.dropLast).length
        = s.segments.length := by
    intro np
    simp only [List.length_cons, List.length_dropLast, hseg]
    simp
  cases d with
  | Right =>
    have htgt : spec_advance_target e Direction.Right viewport =
        ⟨qrem (e.position.x + e.size.x - viewport.left) viewport.width + viewport.left,
         e.position.y⟩ := by
      simp only [spec_advance_target, spec_wrap]
      rw [qrem_add_self (by linarith) hw]
    rw [Snake.advance, Snake.head_position_cons hseg, Snake.size_cons hseg, hlast, hnext, htgt]
    exact ⟨_, rfl, rfl, hlen _, by simp [Snake.head_position, Entity.set_position]⟩
  | Left =>
    have htgt : spec_advance_target e Direction.Left viewport =
        ⟨qrem (e.position.x - e.size.x + viewport.width - viewport.left) viewport.width
          + viewport.left, e.position.y⟩ := by
      simp only [spec_advance_target, spec_wrap]
      have harg : e.position.x - e.size.x - viewport.left + viewport.width
          = e.position.x - e.size.x + viewport.width - viewport.left := by ring
      rw [harg]
    rw [Snake.advance, Snake.head_position_cons hseg, Snake.size_cons hseg, hlast, hnext, htgt]
    exact ⟨_, rfl, rfl, hlen _, by simp [Snake.head_position, Entity.set_position]⟩
  | Down =>
    have htgt : spec_advance_target e Direction.Down viewport =
        ⟨e.position.x,
         qrem (e.position.y + e.size.x - viewport.top) viewport.height + viewport.top⟩ := by
      simp only [spec_advance_target, spec_wrap]
      rw [qrem_add_self (by linarith) hh]
    rw [Snake.advance, Snake.head_position_cons hseg, Snake.size_cons hseg, hlast, hnext, htgt]
    exact ⟨_, rfl, rfl, hlen _, by simp [Snake.head_position, Entity.set_position]⟩
  | Up =>
    have htgt : spec_advance_target e Direction.Up viewport =
        ⟨e.position.x,
         qrem (e.position.y - e.size.x + viewport.height - viewport.top) viewport.height
          + viewport.top⟩ := by
      simp only [spec_advance_target, spec_wrap]
      have harg : e.position.y - e.size.x - viewport.top + viewport.height
          = e.position.y - e.size.x + viewport.height - viewport.top := by ring
      rw [harg]
    rw [Snake.advance, Snake.head_position_cons hseg, Snake.size_cons hseg, hlast, hnext, htgt]
    exact ⟨_, rfl, rfl, hlen _, by simp [Snake.head_position, Entity.set_position]⟩

/-- A one-segment snake whose head sits left of the viewport, moving right. -/
def c1_cex_snake : Snake :=
  Snake.mk [Entity.new 40 ⟨-100, 0⟩ Color.GREEN] (some Direction.Right) (some Direction.Right)

/-- The viewport for the C1 counterexample. -/
def c1_cex_viewport : FloatRect := ⟨0, 0, 400, 400⟩

/-- Counterexample to C1 as stated: for a head at `(-100, 0)` moving right in
the viewport `(0, 0, 400, 400)`, the code computes head x `(-100 + 40 - 0) %
400 = -60` (truncating remainder, no `+ extent` in the `Right` arm), while the
claimed formula `(coordinate - origin + extent) mod extent + origin` gives
`340`; so the claim does not hold for every snake and viewport. -/
theorem c1_advance_wraps_in_viewport_cex :
    (c1_cex_snake.advance c1_cex_viewport).bind Snake.head_position = some ⟨-60, 0⟩ ∧
    spec_advance_target (Entity.new 40 ⟨-100, 0⟩ Color.GREEN) Direction.Right c1_cex_viewport
      = ⟨340, 0⟩ ∧
    (⟨-60, 0⟩ : Vector2f) ≠ ⟨340, 0⟩ := by
  refine ⟨?_, ?_, ?_⟩
  · norm_num [c1_cex_snake, c1_cex_viewport, Snake.advance, Snake.head_position, Snake.size,
      Entity.new, Entity.set_position, qrem, qtrunc, Option.bind]
  · norm_num [c1_cex_viewport, spec_advance_target, spec_wrap, Entity.new, qrem, qtrunc]
  · intro h
    have := congrArg Vector2f.x h
    norm_num at this

/-- Witness for C1 (amended): the spec scenario — head `(380, 0)` moving right
in viewport `(0, 0, 400, 400)` with entity size 40 wraps to `(20, 0)`. -/
theorem c1_advance_wraps_in_viewport_witness :
    (∃ s', (Snake.mk [Entity.new 40 ⟨380, 0⟩ Color.GREEN] (some Direction.Right)
        (some Direction.Right)).advance ⟨0, 0, 400, 400⟩ = some s' ∧
      s'.segments = ((Snake.mk [Entity.new 40 ⟨380, 0⟩ Color.GREEN] (some Direction.Right)
          (some Direction.Right)).segments.getLast (by simp)).set_position
          (spec_advance_target (Entity.new 40 ⟨380, 0⟩ Color.GREEN) Direction.Right
            ⟨0, 0, 400, 400⟩)
        :: (Snake.mk [Entity.new 40 ⟨380, 0⟩ Color.GREEN] (some Direction.Right)
          (some Direction.Right)).segments.dropLast ∧
      s'.segments.length = (Snake.mk [Entity.new 40 ⟨380, 0⟩ Color.GREEN]
        (some Direction.Right) (some Direction.Right)).segments.length ∧
      s'.head_position = some (spec_advance_target (Entity.new 40 ⟨380, 0⟩ Color.GREEN)
        Direction.Right ⟨0, 0, 400, 400⟩)) ∧
    spec_advance_target (Entity.new 40 ⟨380, 0⟩ Color.GREEN) Direction.Right ⟨0, 0, 400, 400⟩
      = ⟨20, 0⟩ :=
  ⟨c1_advance_wraps_in_viewport _ ⟨0, 0, 400, 400⟩ Direction.Right
      (Entity.new 40 ⟨380, 0⟩ Color.GREEN) [] rfl (by simp) rfl
      (by norm_num) (by norm_num) (by norm_num [Entity.new]) (by norm_num [Entity.new])
      (by norm_num [Entity.new]),
    by norm_num [spec_advance_target, spec_wrap, Entity.new, qrem, qtrunc]⟩

/-- Positive-area overlap of two rectangles, after the same min/max
normalisation `FloatRect::intersection` performs: the intersection interval is
non-degenerate (strictly positive length) on both axes. -/
def FloatRect.overlaps (r1 r2 : FloatRect) : Prop :=
  max (min r1.left (r1.left + r1.width)) (min r2.left (r2.left + r2.width)) <
      min (max r1.left (r1.left + r1.width)) (max r2.left (r2.left + r2.width)) ∧
  max (min r1.top (r1.top + r1.height)) (min r2.top (r2.top + r2.height)) <
      min (max r1.top (r1.top + r1.height)) (max r2.top (r2.top + r2.height))

theorem FloatRect.intersection_isSome_iff (r1 r2 : FloatRect) :
    (r1.intersection r2).isSome ↔ r1.overlaps r2 := by
  rw [FloatRect.intersection, FloatRect.overlaps]
  split
  next h => exact iff_of_true rfl h
  next h => exact iff_of_false (by simp) h

theorem FloatRect.intersection_eq_none (r1 r2 : FloatRect) (h : ¬ r1.overlaps r2) :
    r1.intersection r2 = none := by
  have h2 := (FloatRect.intersection_isSome_iff r1 r2).not.mpr h
  simpa [Option.not_isSome_iff_eq_none] using h2

/-- C10: `collision` reports a collision exactly when some tested segment
rectangle overlaps the probe with strictly positive area; a rectangle pair
with only zero-area (edge or corner) contact yields no intersection; and in
particular a head exactly edge-adjacent to its neighbouring segment does not
trigger `self_collision`. -/
theorem c10_collision_positive_area_only :
    (∀ (s : Snake) (area : FloatRect) (n_skip : ℕ),
      s.collision area n_skip = true ↔
        ∃ segment ∈ s.segments.drop n_skip,
          area.overlaps ⟨segment.position.x, segment.position.y, area.width, area.height⟩) ∧
    (∀ r1 r2 : FloatRect, ¬ r1.overlaps r2 → r1.intersection r2 = none) ∧
    (∀ (x y sz : ℚ) (c : Color) (d nd : Option Direction), 0 < sz →
      (Snake.mk [Entity.mk ⟨x + sz, y⟩ ⟨sz, sz⟩ c, Entity.mk ⟨x, y⟩ ⟨sz, sz⟩ c] d nd).self_collision
        = some false) := by
  refine ⟨?_, FloatRect.intersection_eq_none, ?_⟩
  · intro s area n_skip
    simp [Snake.collision, List.any_eq_true, FloatRect.intersection_isSome_iff]
  · intro x y sz c d nd hsz
    have hov : ¬ FloatRect.overlaps ⟨x + sz, y, sz, sz⟩ ⟨x, y, sz, sz⟩ := by
      rintro ⟨h1, -⟩
      simp only [FloatRect.overlaps] at h1
      rw [min_eq_left (by linarith : x + sz ≤ x + sz + sz),
          min_eq_left (by linarith : x ≤ x + sz),
          max_eq_right (by linarith : x + sz ≤ x + sz + sz),
          max_eq_right (by linarith : x ≤ x + sz),
          max_eq_left (by linarith : x ≤ x + sz),
          min_eq_right (by linarith : x + sz ≤ x + sz + sz)] at h1
      exact lt_irrefl _ h1
    have hnone : FloatRect.intersection ⟨x + sz, y, sz, sz⟩ ⟨x, y, sz, sz⟩ = none :=
      FloatRect.intersection_eq_none _ _ hov
    simp [Snake.self_collision, Snake.area, Snake.collision, Entity.area, hnone]

/-- Witness for C10: a concrete two-segment snake whose head touches its
neighbour exactly along one edge has no self collision. -/
theorem c10_collision_positive_area_only_witness :
    (Snake.mk [Entity.mk ⟨0 + 40, 0⟩ ⟨40, 40⟩ Color.GREEN, Entity.mk ⟨0, 0⟩ ⟨40, 40⟩ Color.GREEN]
        (some Direction.Right) (some Direction.Right)).self_collision = some false :=
  c10_collision_positive_area_only.2.2 0 0 40 Color.GREEN (some Direction.Right)
    (some Direction.Right) (by norm_num)

/-- Facts about one coordinate of `random_position` when the origin is itself
a non-negative multiple of the grid step `s`: the truncated coordinate is at
least the origin, an integer multiple of `s` away from it, and the nearest
lower multiple of `s` below the drawn value. -/
theorem random_coord_facts (origin s r : ℚ) (a : ℤ)
    (hs : 0 < s) (ho : origin = (a : ℚ) * s) (hr1 : 0 ≤ r) (ho0 : 0 ≤ origin) :
    origin ≤ (r + origin) - qrem (r + origin) s ∧
    (∃ k : ℤ, ((r + origin) - qrem (r + origin) s) - origin = (k : ℚ) * s) ∧
    (r + origin) - qrem (r + origin) s ≤ r + origin ∧
    (r + origin) - ((r + origin) - qrem (r + origin) s) < s := by
  subst ho
  have hx0 : (0 : ℚ) ≤ r + (a : ℚ) * s := by linarith
  have hq := qrem_eq_sub_floor hx0 hs
  have hqn := qrem_nonneg hx0 hs
  have hql := qrem_lt hx0 hs
  have hxval : (r + (a : ℚ) * s) - qrem (r + (a : ℚ) * s) s
      = s * ⌊(r + (a : ℚ) * s) / s⌋ := by
    rw [hq]; ring
  have hfl : a ≤ ⌊(r + (a : ℚ) * s) / s⌋ := by
    rw [Int.le_floor, le_div_iff₀ hs]
    linarith
  have hflq : (a : ℚ) ≤ (⌊(r + (a : ℚ) * s) / s⌋ : ℚ) := by exact_mod_cast hfl
  refine ⟨?_, ⟨⌊(r + (a : ℚ) * s) / s⌋ - a, ?_⟩, by linarith, by linarith⟩
  · rw [hxval]
    nlinarith
  · rw [hxval]
    push_cast
    ring

/-- C7 (amended): when the viewport origin coordinates are non-negative
multiples of the (positive) entity size and the two uniform draws lie in
`[0, extent)`, `random_position` returns a point inside the viewport whose
offsets from the viewport origin are integer multiples of the entity size,
each the nearest lower multiple below the drawn coordinate. -/
theorem c7_random_position_grid (viewport : FloatRect) (entity_size : ℕ) (rx ry : ℚ)
    (a b : ℤ) (hsz : 0 < entity_size)
    (hleft : viewport.left = (a : ℚ) * entity_size)
    (htop : viewport.top = (b : ℚ) * entity_size)
    (hl0 : 0 ≤ viewport.left) (ht0 : 0 ≤ viewport.top)
    (hrx1 : 0 ≤ rx) (hrx2 : rx < viewport.width)
    (hry1 : 0 ≤ ry) (hry2 : ry < viewport.height) :
    ∃ px py, SnakeGame.random_position viewport entity_size rx ry = ⟨px, py⟩ ∧
      viewport.left ≤ px ∧ px < viewport.left + viewport.width ∧
      viewport.top ≤ py ∧ py < viewport.top + viewport.height ∧
      (∃ k : ℤ, px - viewport.left = (k : ℚ) * entity_size) ∧
      (∃ k : ℤ, py - viewport.top = (k : ℚ) * entity_size) ∧
      px ≤ rx + viewport.left ∧ rx + viewport.left - px < entity_size ∧
      py ≤ ry + viewport.top ∧ ry + viewport.top - py < entity_size := by
  have hs : (0 : ℚ) < (entity_size : ℚ) := by exact_mod_cast hsz
  obtain ⟨hx1, hxk, hx2, hx3⟩ :=
    random_coord_facts viewport.left (entity_size : ℚ) rx a hs hleft hrx1 hl0
  obtain ⟨hy1, hyk, hy2, hy3⟩ :=
    random_coord_facts viewport.top (entity_size : ℚ) ry b hs htop hry1 ht0
  refine ⟨(rx + viewport.left) - qrem (rx + viewport.left) (entity_size : ℚ),
          (ry + viewport.top) - qrem (ry + viewport.top) (entity_size : ℚ),
          rfl, hx1, by linarith, hy1, by linarith, hxk, hyk,
          hx2, by linarith, hy2, by linarith⟩

/-- A viewport whose left origin (20) is not a multiple of the entity size
(40). -/
def c7_cex_viewport : FloatRect := ⟨20, 0, 40, 40⟩

/-- Counterexample to C7 as stated: the code truncates `x - x % entity_size`
in absolute coordinates, not relative to the viewport origin; for viewport
`(20, 0, 40, 40)`, entity size 40 and draws `(0, 0)` it returns `(0, 0)`,
which lies outside the viewport and whose offset from the origin, `-20`, is
not an integer multiple of 40. -/
theorem c7_random_position_grid_cex :
    SnakeGame.random_position c7_cex_viewport 40 0 0 = ⟨0, 0⟩ ∧
    ¬ (c7_cex_viewport.left ≤ (0 : ℚ)) ∧
    ¬ ∃ k : ℤ, (0 : ℚ) - c7_cex_viewport.left = (k : ℚ) * 40 := by
  refine ⟨?_, ?_, ?_⟩
  · norm_num [SnakeGame.random_position, c7_cex_viewport, qrem, qtrunc]
  · norm_num [c7_cex_viewport]
  · rintro ⟨k, hk⟩
    simp only [c7_cex_viewport] at hk
    have hk2 : (-20 : ℚ) = (k : ℚ) * 40 := by
      norm_num at hk
      linarith
    have hk3 : (-20 : ℤ) = k * 40 := by exact_mod_cast hk2
    omega

/-- Witness for C7 (amended): the game's own inset viewport
`(40, 80, 400, 400)` with entity size 40 and draws `(170, 230)`. -/
theorem c7_random_position_grid_witness :
    ∃ px py, SnakeGame.random_position ⟨40, 80, 400, 400⟩ 40 170 230 = ⟨px, py⟩ ∧
      (40 : ℚ) ≤ px ∧ px < 40 + 400 ∧
      (80 : ℚ) ≤ py ∧ py < 80 + 400 ∧
      (∃ k : ℤ, px - 40 = (k : ℚ) * 40) ∧
      (∃ k : ℤ, py - 80 = (k : ℚ) * 40) ∧
      px ≤ 170 + 40 ∧ 170 + 40 - px < 40 ∧
      py ≤ 230 + 80 ∧ 230 + 80 - py < 40 :=
  c7_random_position_grid ⟨40, 80, 400, 400⟩ 40 170 230 1 2 (by norm_num)
    (by norm_num) (by norm_num) (by norm_num) (by norm_num) (by norm_num)
    (by norm_num) (by norm_num) (by norm_num)

/-- A movement key in state `GameOver` resets the snake and score, then
(since the reset snake has a single segment and no direction) always stores
the new direction and enters `Play`. -/
theorem handle_input_gameover_directional (g : SnakeGame) (key : Key) (d : Direction)
    (hkey : key_direction key = some d) (hst : g.state = State.GameOver) :
    g.handle_input key = { (SnakeGame.set_score { g with player := g.player.reset } 0) with
      player := { g.player.reset with next_direction := some d },
      state := State.Play } := by
  simp only [SnakeGame.handle_input, hkey, hst]
  split
  · rfl
  · next h =>
    exfalso
    apply h
    simp [SnakeGame.set_score, Snake.reset, Direction.is_opposite_to]

/-- C3 (amended): in state `Pause`, a directional key transitions to `Play`
when the snake has a single segment or the key is not opposite to the current
direction; when the snake is longer and the key is the exact opposite, the
input is rejected and the game (state included) is unchanged. -/
theorem c3_pause_directional_resumes (g : SnakeGame) (key : Key) (d : Direction)
    (hkey : key_direction key = some d) (hst : g.state = State.Pause) :
    ((g.player.segments.length = 1 ∨ d.is_opposite_to g.player.direction = false) →
      (g.handle_input key).state = State.Play) ∧
    (g.player.segments.length ≠ 1 → d.is_opposite_to g.player.direction = true →
      g.handle_input key = g) := by
  simp only [SnakeGame.handle_input, hkey, hst]
  constructor
  · intro h
    split
    · rfl
    · next hcond =>
      exfalso
      apply hcond
      rcases h with h | h <;> simp [h]
  · intro h1 h2
    split
    · next hcond =>
      exfalso
      simp [h2] at hcond
      exact h1 hcond
    · rfl

/-- C4 (amended): outside `GameOver`, a directional key that is the exact
opposite of the current direction is rejected for a snake longer than one
segment (the game, in particular `next_direction`, is unchanged), and is
stored as `next_direction` for a single-segment snake or a non-opposite key;
in `GameOver` the snake is first reset to one segment, so the key is always
stored. -/
theorem c4_opposite_direction_rejected :
    (∀ (g : SnakeGame) (key : Key) (d : Direction), key_direction key = some d →
      g.state ≠ State.GameOver →
      (1 < g.player.segments.length → d.is_opposite_to g.player.direction = true →
        g.handle_input key = g) ∧
      ((g.player.segments.length = 1 ∨ d.is_opposite_to g.player.direction = false) →
        (g.handle_input key).player.next_direction = some d)) ∧
    (∀ (g : SnakeGame) (key : Key) (d : Direction), key_direction key = some d →
      g.state = State.GameOver → (g.handle_input key).player.next_direction = some d) := by
  constructor
  · intro g key d hkey hst
    have hmain : ∀ _ : g.state = State.Pause ∨ g.state = State.Play,
        (1 < g.player.segments.length → d.is_opposite_to g.player.direction = true →
          g.handle_input key = g) ∧
        ((g.player.segments.length = 1 ∨ d.is_opposite_to g.player.direction = false) →
          (g.handle_input key).player.next_direction = some d) := by
      intro hgs
      rcases hgs with hgs | hgs <;>
      · simp only [SnakeGame.handle_input, hkey, hgs]
        constructor
        · intro hlen hopp
          split
          · next hcond =>
            exfalso
            simp [hopp] at hcond
            omega
          · rfl
        · intro h
          split
          · rfl
          · next hcond =>
            exfalso
            apply hcond
            rcases h with h | h <;> simp [h]
    apply hmain
    cases hgs : g.state
    · exact Or.inl rfl
    · exact Or.inr rfl
    · exact absurd hgs hst
  · intro g key d hkey hst
    rw [handle_input_gameover_directional g key d hkey hst]

/-- A two-segment snake currently moving right, with no pending direction. -/
def c34_player : Snake :=
  Snake.mk [Entity.new 40 ⟨80, 80⟩ Color.GREEN, Entity.new 40 ⟨40, 80⟩ Color.GREEN]
    (some Direction.Right) none

/-- A concrete paused game holding `c34_player`. -/
def c3_cex_game : SnakeGame :=
  { player := c34_player,
    food := Entity.new 40 ⟨160, 160⟩ Color.RED,
    entity_size := 40,
    viewport := ⟨40, 80, 400, 400⟩,
    score := 0,
    state := State.Pause,
    score_text := { position := ⟨430, 10⟩, content := "0", character_size := 50 },
    window_size_x := 480 }

/-- The paused game of the C3 counterexample, but in state `GameOver`. -/
def c4_cex_game : SnakeGame := { c3_cex_game with state := State.GameOver }

/-- Counterexample to C3 as stated: in state `Pause`, the directional key `A`
maps to `Left`, the exact opposite of the two-segment snake's current
direction `Right`, so `handle_input` rejects it and the state stays `Pause`
instead of transitioning to `Play`. -/
theorem c3_pause_directional_resumes_cex :
    c3_cex_game.state = State.Pause ∧
    key_direction Key.A = some Direction.Left ∧
    (c3_cex_game.handle_input Key.A).state = State.Pause ∧
    State.Pause ≠ State.Play := by
  refine ⟨rfl, rfl, ?_, by decide⟩
  norm_num [c3_cex_game, c34_player, SnakeGame.handle_input, key_direction,
    Direction.is_opposite_to, Entity.new]

/-- The paused game of the C3 counterexample with a single-segment snake. -/
def c3_wit_game : SnakeGame := { c3_cex_game with player := Snake.new ⟨80, 80⟩ 40 Color.GREEN }

/-- Witness for C3 (amended): a directional key on a paused single-segment
game enters `Play`. -/
theorem c3_pause_directional_resumes_witness :
    (c3_wit_game.handle_input Key.A).state = State.Play :=
  (c3_pause_directional_resumes c3_wit_game Key.A Direction.Left rfl rfl).1
    (Or.inl (by simp [c3_wit_game, c3_cex_game, Snake.new]))

/-- Counterexample to C4 as stated: in state `GameOver` a two-segment snake
moving right receives the opposite key `A`; the snake is reset first, so
`next_direction` changes from `none` to `some Left` instead of staying
unmodified. -/
theorem c4_opposite_direction_rejected_cex :
    c4_cex_game.state = State.GameOver ∧
    1 < c4_cex_game.player.segments.length ∧
    Direction.Left.is_opposite_to c4_cex_game.player.direction = true ∧
    c4_cex_game.player.next_direction = none ∧
    (c4_cex_game.handle_input Key.A).player.next_direction = some Direction.Left := by
  refine ⟨rfl, by norm_num [c4_cex_game, c3_cex_game, c34_player], rfl, rfl, ?_⟩
  rw [handle_input_gameover_directional c4_cex_game Key.A Direction.Left rfl rfl]

/-- Witness for C4 (amended): the paused two-segment game rejects the
opposite key unchanged, and the same game in `GameOver` stores it. -/
theorem c4_opposite_direction_rejected_witness :
    c3_cex_game.handle_input Key.A = c3_cex_game ∧
    (c4_cex_game.handle_input Key.A).player.next_direction = some Direction.Left :=
  ⟨(c4_opposite_direction_rejected.1 c3_cex_game Key.A Direction.Left rfl (by decide)).1
      (by norm_num [c3_cex_game, c34_player]) rfl,
   c4_opposite_direction_rejected.2 c4_cex_game Key.A Direction.Left rfl rfl⟩

/-- The rejection-sampling loop only ever returns a position whose food
rectangle does not collide with the snake. -/
theorem food_search_no_collision (player : Snake) (viewport : FloatRect) (entity_size : ℕ) :
    ∀ (draws : List (ℚ × ℚ)) (p : Vector2f),
      food_search player viewport entity_size draws = some p →
      player.collision ⟨p.x, p.y, (entity_size : ℚ), (entity_size : ℚ)⟩ 0 = false := by
  intro draws
  induction draws with
  | nil =>
    intro p h
    simp [food_search] at h
  | cons d rest ih =>
    intro p h
    rw [food_search] at h
    split at h
    · exact ih p h
    · next hcond =>
      injection h with h2
      subst h2
      exact Bool.not_eq_true _ ▸ eq_false_of_ne_true hcond

/-- `collision` is false exactly when the probe rectangle intersects no
tested segment rectangle. -/
theorem collision_false_iff (s : Snake) (area : FloatRect) (n : ℕ) :
    s.collision area n = false ↔
      ∀ segment ∈ s.segments.drop n,
        area.intersection ⟨segment.position.x, segment.position.y, area.width, area.height⟩
          = none := by
  simp [Snake.collision, List.any_eq_false, Option.not_isSome_iff_eq_none]

/-- Forward evaluation of `update` through the food-consumption branch. -/
theorem update_eat_eq (g : SnakeGame) (draws : List (ℚ × ℚ))
    (p : Snake) (a : FloatRect) (r : FloatRect) (p2 : Snake) (fp : Vector2f)
    (hst : g.state = State.Play)
    (hadv : g.player.advance g.viewport = some p)
    (hsc : Snake.self_collision p = some false)
    (harea : Snake.area p = some a)
    (hint : a.intersection g.food.area = some r)
    (hgrow : Snake.grow p = some p2)
    (hfs : food_search p2 g.viewport g.entity_size draws = some fp) :
    g.update draws = some (SnakeGame.set_score
      { g with player := p2, food := g.food.set_position fp } ((g.score + 10) % 2 ^ 32)) := by
  simp only [SnakeGame.update, hst, hadv, hsc, harea, hint, hgrow, hfs]

/-- Inversion of `update` on the food-consumption branch: the new state is
the grown snake, the relocated food and the increased score. -/
theorem update_eaten_spec (g : SnakeGame) (draws : List (ℚ × ℚ)) (g' : SnakeGame)
    (hupd : g.update draws = some g') (heat : g.food_eaten) :
    ∃ p p2 fp, g.player.advance g.viewport = some p ∧ Snake.grow p = some p2 ∧
      food_search p2 g.viewport g.entity_size draws = some fp ∧
      g' = SnakeGame.set_score { g with player := p2, food := g.food.set_position fp }
        ((g.score + 10) % 2 ^ 32) := by
  obtain ⟨hst, p, hadv, hsc, a, harea, hint⟩ := heat
  obtain ⟨r, hr⟩ := Option.isSome_iff_exists.mp hint
  simp only [SnakeGame.update, hst, hadv, hsc, harea, hr] at hupd
  rw [hst]
  cases hgrow : Snake.grow p with
  | none =>
    rw [hgrow] at hupd
    simp at hupd
  | some p2 =>
    rw [hgrow] at hupd
    simp only [] at hupd
    cases hfs : food_search p2 g.viewport g.entity_size draws with
    | none =>
      rw [hfs] at hupd
      simp at hupd
    | some fp =>
      rw [hfs] at hupd
      simp only [] at hupd
      injection hupd with h
      exact ⟨p, p2, fp, hadv, hgrow, hfs, h.symm⟩

/-- C2: whenever `update` terminates having taken the food-consumption
branch, the relocated food rectangle intersects no segment of the current
(grown) snake. -/
theorem c2_food_relocation_no_overlap (g : SnakeGame) (draws : List (ℚ × ℚ)) (g' : SnakeGame)
    (hupd : g.update draws = some g') (heat : g.food_eaten) :
    ∀ segment ∈ g'.player.segments,
      FloatRect.intersection
        ⟨g'.food.position.x, g'.food.position.y, (g.entity_size : ℚ), (g.entity_size : ℚ)⟩
        ⟨segment.position.x, segment.position.y, (g.entity_size : ℚ), (g.entity_size : ℚ)⟩
        = none := by
  obtain ⟨p, p2, fp, hadv, hgrow, hfs, hg'⟩ := update_eaten_spec g draws g' hupd heat
  subst hg'
  intro segment hseg
  have hcol := food_search_no_collision p2 g.viewport g.entity_size draws fp hfs
  have hall := (collision_false_iff p2 _ 0).mp hcol
  have hseg2 : segment ∈ p2.segments := by
    simpa [SnakeGame.set_score] using hseg
  have hnone := hall segment (by simpa using hseg2)
  simpa [SnakeGame.set_score, Entity.set_position] using hnone

/-- A concrete game about to eat: the head rests on the food. -/
def c2_wit_game : SnakeGame :=
  { player := Snake.mk [Entity.new 40 ⟨0, 0⟩ Color.GREEN] none none,
    food := Entity.new 40 ⟨0, 0⟩ Color.RED,
    entity_size := 40, viewport := ⟨0, 0, 120, 120⟩, score := 0, state := State.Play,
    score_text := { position := ⟨350, 10⟩, content := "0", character_size := 50 },
    window_size_x := 400 }

/-- The advanced (unmoved) snake for the C2 witness. -/
def c2_wit_p1 : Snake := Snake.mk [Entity.new 40 ⟨0, 0⟩ Color.GREEN] none none

/-- The grown snake for the C2 witness. -/
def c2_wit_p2 : Snake :=
  Snake.mk [Entity.new 40 ⟨0, 0⟩ Color.GREEN, Entity.new 40 ⟨0, 0⟩ Color.GREEN] none none

/-- The C2 witness game advances without moving (no direction set). -/
theorem c2_wit_adv : c2_wit_game.player.advance c2_wit_game.viewport = some c2_wit_p1 := by
  norm_num [c2_wit_game, c2_wit_p1, Snake.advance, Snake.head_position, Snake.size,
    Entity.new, Entity.set_position]

/-- The C2 witness snake has no self collision. -/
theorem c2_wit_sc : Snake.self_collision c2_wit_p1 = some false := by
  norm_num [c2_wit_p1, Snake.self_collision, Snake.area, Snake.collision, Entity.new,
    Entity.area]

/-- The head area of the C2 witness snake. -/
theorem c2_wit_area : Snake.area c2_wit_p1 = some ⟨0, 0, 40, 40⟩ := by
  norm_num [c2_wit_p1, Snake.area, Entity.new, Entity.area]

/-- The C2 witness head overlaps the food. -/
theorem c2_wit_int : FloatRect.intersection ⟨0, 0, 40, 40⟩ c2_wit_game.food.area
    = some ⟨0, 0, 40, 40⟩ := by
  norm_num [c2_wit_game, FloatRect.intersection, Entity.new, Entity.area]

/-- Growing the C2 witness snake duplicates the head segment at the back. -/
theorem c2_wit_grow : Snake.grow c2_wit_p1 = some c2_wit_p2 := by
  norm_num [c2_wit_p1, c2_wit_p2, Snake.grow, Snake.size, Snake.head_position, Snake.color,
    Entity.new, f32_as_u32, qtrunc]
  norm_cast

/-- The first draw already misses the C2 witness snake. -/
theorem c2_wit_fs : food_search c2_wit_p2 c2_wit_game.viewport c2_wit_game.entity_size
    [(80, 80)] = some ⟨80, 80⟩ := by
  norm_num [c2_wit_p2, c2_wit_game, food_search, SnakeGame.random_position, Snake.collision,
    Entity.new, FloatRect.intersection, qrem, qtrunc]

/-- The C2 witness game takes the food-consumption branch. -/
theorem c2_wit_eaten : c2_wit_game.food_eaten :=
  ⟨rfl, c2_wit_p1, c2_wit_adv, c2_wit_sc, ⟨0, 0, 40, 40⟩, c2_wit_area, by
    rw [c2_wit_int]; rfl⟩

/-- The full `update` result for the C2 witness game. -/
theorem c2_wit_upd : c2_wit_game.update [(80, 80)] = some (SnakeGame.set_score
    { c2_wit_game with
        player := c2_wit_p2,
        food := c2_wit_game.food.set_position ⟨80, 80⟩ }
    ((c2_wit_game.score + 10) % 2 ^ 32)) :=
  update_eat_eq c2_wit_game [(80, 80)] c2_wit_p1 ⟨0, 0, 40, 40⟩ ⟨0, 0, 40, 40⟩ c2_wit_p2
    ⟨80, 80⟩ rfl c2_wit_adv c2_wit_sc c2_wit_area c2_wit_int c2_wit_grow c2_wit_fs

/-- Witness for C2: in the concrete eating run the relocated food rectangle
at `(80, 80)` does not intersect the snake segment rectangle at `(0, 0)`. -/
theorem c2_food_relocation_no_overlap_witness :
    FloatRect.intersection
      ⟨(80 : ℚ), 80, ((40 : ℕ) : ℚ), ((40 : ℕ) : ℚ)⟩
      ⟨(0 : ℚ), 0, ((40 : ℕ) : ℚ), ((40 : ℕ) : ℚ)⟩ = none := by
  have h := c2_food_relocation_no_overlap c2_wit_game [(80, 80)] _ c2_wit_upd c2_wit_eaten
    (Entity.new 40 ⟨0, 0⟩ Color.GREEN)
    (by simp [SnakeGame.set_score, c2_wit_p2])
  simpa [SnakeGame.set_score, Entity.set_position, Entity.new, c2_wit_game] using h

/-- A non-movement key never changes the score. -/
theorem handle_input_score_nondirectional (g : SnakeGame) (key : Key)
    (hkey : key_direction key = none) : (g.handle_input key).score = g.score := by
  simp only [SnakeGame.handle_input, hkey]
  cases key with
  | A => exact Option.noConfusion hkey
  | W => exact Option.noConfusion hkey
  | D => exact Option.noConfusion hkey
  | S => exact Option.noConfusion hkey
  | P =>
    cases hgs : g.state <;> simp [hgs]
  | Other => rfl

/-- A movement key outside `GameOver` never changes the score. -/
theorem handle_input_score_not_gameover (g : SnakeGame) (key : Key) (d : Direction)
    (hkey : key_direction key = some d) (hst : g.state ≠ State.GameOver) :
    (g.handle_input key).score = g.score := by
  have h3 : g.state = State.Pause ∨ g.state = State.Play := by
    cases hgs : g.state
    · exact Or.inl rfl
    · exact Or.inr rfl
    · exact absurd hgs hst
  rcases h3 with hgs | hgs <;>
  · simp only [SnakeGame.handle_input, hkey, hgs]
    split <;> rfl

/-- C5: `update` adds exactly 10 to the score (as a `u32`, hence modulo
`2 ^ 32`; exactly 10 whenever the sum fits) precisely when the
food-consumption branch is taken, and leaves it unchanged otherwise; a
directional key in `GameOver` resets the score to 0 and re-enters `Play`; all
other inputs leave the score unchanged. -/
theorem c5_score_changes :
    (∀ (g : SnakeGame) (draws : List (ℚ × ℚ)) (g' : SnakeGame), g.update draws = some g' →
      (g.food_eaten → g'.score = (g.score + 10) % 2 ^ 32 ∧
        (g.score + 10 < 2 ^ 32 → g'.score = g.score + 10)) ∧
      (¬ g.food_eaten → g'.score = g.score)) ∧
    (∀ (g : SnakeGame) (key : Key) (d : Direction), key_direction key = some d →
      g.state = State.GameOver →
      (g.handle_input key).score = 0 ∧ (g.handle_input key).state = State.Play) ∧
    (∀ (g : SnakeGame) (key : Key),
      key_direction key = none ∨ g.state ≠ State.GameOver →
      (g.handle_input key).score = g.score) := by
  refine ⟨?_, ?_, ?_⟩
  · intro g draws g' hupd
    constructor
    · intro heat
      obtain ⟨p, p2, fp, hadv, hgrow, hfs, hg'⟩ := update_eaten_spec g draws g' hupd heat
      subst hg'
      constructor
      · rfl
      · intro hlt
        show (g.score + 10) % 2 ^ 32 = g.score + 10
        exact Nat.mod_eq_of_lt hlt
    · intro hne
      simp only [SnakeGame.update] at hupd
      cases hst : g.state with
      | Pause =>
        simp only [hst] at hupd
        injection hupd with h
        subst h
        rfl
      | GameOver =>
        simp only [hst] at hupd
        injection hupd with h
        subst h
        rfl
      | Play =>
        simp only [hst] at hupd
        cases hadv : g.player.advance g.viewport with
        | none => simp [hadv] at hupd
        | some p =>
          simp only [hadv] at hupd
          cases hsc : Snake.self_collision p with
          | none => simp [hsc] at hupd
          | some b =>
            cases b with
            | true =>
              simp only [hsc] at hupd
              injection hupd with h
              subst h
              simp [SnakeGame.game_over]
            | false =>
              simp only [hsc] at hupd
              cases harea : Snake.area p with
              | none =>
                exfalso
                rw [Snake.self_collision, harea] at hsc
                simp at hsc
              | some a =>
                simp only [harea] at hupd
                cases hint : a.intersection g.food.area with
                | some r =>
                  exact absurd ⟨hst, p, hadv, hsc, a, harea, by simp [hint]⟩ hne
                | none =>
                  simp only [hint] at hupd
                  injection hupd with h
                  subst h
                  rfl
  · intro g key d hkey hst
    rw [handle_input_gameover_directional g key d hkey hst]
    exact ⟨by simp [SnakeGame.set_score], rfl⟩
  · intro g key h
    rcases h with hkey | hst
    · exact handle_input_score_nondirectional g key hkey
    · cases hkd : key_direction key with
      | none => exact handle_input_score_nondirectional g key hkd
      | some d => exact handle_input_score_not_gameover g key d hkd hst

/-- Witness for C5: the concrete eating run scores 10 from 0; a directional
key on a game-over game resets the score and resumes; `P` on a paused game
keeps the score. -/
theorem c5_score_changes_witness :
    (SnakeGame.set_score
      { c2_wit_game with
          player := c2_wit_p2,
          food := c2_wit_game.food.set_position ⟨80, 80⟩ }
      ((c2_wit_game.score + 10) % 2 ^ 32)).score = c2_wit_game.score + 10 ∧
    (c4_cex_game.handle_input Key.A).score = 0 ∧
    (c4_cex_game.handle_input Key.A).state = State.Play ∧
    (c3_cex_game.handle_input Key.P).score = c3_cex_game.score :=
  ⟨((c5_score_changes.1 c2_wit_game [(80, 80)] _ c2_wit_upd).1 c2_wit_eaten).2
      (by norm_num [c2_wit_game]),
   (c5_score_changes.2.1 c4_cex_game Key.A Direction.Left rfl rfl).1,
   (c5_score_changes.2.1 c4_cex_game Key.A Direction.Left rfl rfl).2,
   c5_score_changes.2.2 c3_cex_game Key.P (Or.inl rfl)⟩

/-- C9: with fewer than three arguments `rust_main` exits with code 1 and a
message; with a non-numeric width or height it aborts with the panic message
and exit code 101, in all cases without reaching the run path that creates
the window and game state; with two parseable dimensions `Config::new`
succeeds and the game is run with them. -/
theorem c9_startup_config_errors :
    (∀ args : List String, args.length < 3 →
      ∃ msg, rust_main args = MainOutcome.exit 1 msg ∧ (1 : ℕ) ≠ 0) ∧
    (∀ args : List String, 3 ≤ args.length → parseU32 (args.getD 1 "") = none →
      ∃ msg, rust_main args = MainOutcome.exit 101 msg ∧ (101 : ℕ) ≠ 0) ∧
    (∀ (args : List String) (w : ℕ), 3 ≤ args.length →
      parseU32 (args.getD 1 "") = some w → parseU32 (args.getD 2 "") = none →
      ∃ msg, rust_main args = MainOutcome.exit 101 msg ∧ (101 : ℕ) ≠ 0) ∧
    (∀ (args : List String) (w h : ℕ), 3 ≤ args.length →
      parseU32 (args.getD 1 "") = some w → parseU32 (args.getD 2 "") = some h →
      0 < w → 0 < h →
      ∃ cfg, Config.new args = Except.ok cfg ∧ rust_main args = MainOutcome.run cfg ∧
        cfg.window_size = (w, h)) := by
  refine ⟨?_, ?_, ?_, ?_⟩
  · intro args hlen
    have hc : Config.new args = Except.error
        (ConfigError.invalid_arg_count "Invalid number of arguments: <width> <height>") := by
      rw [Config.new, if_pos hlen]
    refine ⟨"Error parsing arguments: " ++ "Invalid number of arguments: <width> <height>"
      ++ ".", ?_, by norm_num⟩
    rw [rust_main, hc]
  · intro args hlen hp1
    have hc : Config.new args = Except.error
        (ConfigError.parse_panic "The window with must be a u32") := by
      rw [Config.new, if_neg (by omega)]
      rw [hp1]
    refine ⟨"The window with must be a u32", ?_, by norm_num⟩
    rw [rust_main, hc]
  · intro args w hlen hp1 hp2
    have hc : Config.new args = Except.error
        (ConfigError.parse_panic "The window height must be a u32") := by
      rw [Config.new, if_neg (by omega)]
      rw [hp1, hp2]
    refine ⟨"The window height must be a u32", ?_, by norm_num⟩
    rw [rust_main, hc]
  · intro args w h hlen hp1 hp2 _hw _hh
    have hc : Config.new args = Except.ok
        { window_size := (w, h), entity_size := 40, fps := 10, text_size := 50,
          text_color := Color.BLACK, snake_color := Color.GREEN,
          food_color := Color.RED, back_color := Color.rgb 122 122 122 } := by
      rw [Config.new, if_neg (by omega)]
      rw [hp1, hp2]
    refine ⟨_, hc, ?_, rfl⟩
    rw [rust_main, hc]

/-- Witness for C9: a missing-argument call exits 1, a non-numeric width
exits 101, and valid dimensions 400 x 300 produce a configuration. -/
theorem c9_startup_config_errors_witness :
    (∃ msg, rust_main ["snake"] = MainOutcome.exit 1 msg ∧ (1 : ℕ) ≠ 0) ∧
    (∃ msg, rust_main ["snake", "4a0", "300"] = MainOutcome.exit 101 msg ∧ (101 : ℕ) ≠ 0) ∧
    (∃ cfg, Config.new ["snake", "400", "300"] = Except.ok cfg ∧
      rust_main ["snake", "400", "300"] = MainOutcome.run cfg ∧
      cfg.window_size = (400, 300)) :=
  ⟨c9_startup_config_errors.1 ["snake"] (by norm_num),
   c9_startup_config_errors.2.1 ["snake", "4a0", "300"] (by norm_num) (by decide),
   c9_startup_config_errors.2.2.2 ["snake", "400", "300"] 400 300 (by norm_num)
     (by decide) (by decide) (by norm_num) (by norm_num)⟩
